import Mathlib

/-!
Verification of the storage backend abstraction of the Dashboard repository
(src/index.ts): a uniform readAll/writeAll contract over three persistence
mechanisms (local JSON file, remote blob store, relational table), selected
per call from environment configuration.

The TypeScript functions are embedded shallowly:
* JavaScript runtime values that flow through `JSON.parse`/`JSON.stringify`
  are modelled by the inductive `JVal`; a stored payload is `Option JVal`,
  where `none` stands for bytes that do not parse as JSON (so `JSON.parse`
  throws on them).  The JSON library's guarantee that `parse (stringify v)`
  yields `v` back is built into this representation.
* The filesystem, the blob store and the database are explicit state
  records; `async` functions that can reject become `Except`-valued state
  transformers, and environmental failures (a failing `mkdir`, a failing
  `readFile`, a network error) are injected through Boolean fields of the
  state.
* `process.env` is a record of `Option String` fields; JavaScript
  truthiness of `Boolean(process.env.X)` is `envTruthy`.
-/

/-- JavaScript values as produced by `JSON.parse` / consumed by
`JSON.stringify`.  Numbers are restricted to the integers, which is all the
repository ever stores (`User.id`). -/
inductive JVal where
  | jnull : JVal
  | jbool : Bool → JVal
  | jnum : Int → JVal
  | jstr : String → JVal
  | jarr : List JVal → JVal
  | jobj : List (String × JVal) → JVal

/-- The sole entity of the data model (src/index.ts line 28):
`type User = { id: number; name: string; email: string }`. -/
structure User where
  id : Int
  name : String
  email : String
deriving DecidableEq, Repr

/-- The JSON object a `User` serializes to: `JSON.stringify` emits the
fields in declaration order `id`, `name`, `email`. -/
def encodeUser (u : User) : JVal :=
  JVal.jobj [("id", JVal.jnum u.id), ("name", JVal.jstr u.name),
             ("email", JVal.jstr u.email)]

/-- Spec-side validity of a user record: positive integer id, non-empty
name and email (spec section 3). -/
def ValidUsers (l : List User) : Prop :=
  ∀ u ∈ l, 0 < u.id ∧ u.name ≠ "" ∧ u.email ≠ ""

/-- Errors with which the embedded async functions can reject. -/
inductive StoreError where
  | mkdirFailed : StoreError
  | readFailed : StoreError
  | enoent : StoreError
deriving DecidableEq, Repr

/-- A stored payload: `none` models bytes that `JSON.parse` rejects,
`some v` models text whose parse result is `v`. -/
abbrev JContent := Option JVal

/-- Does the payload parse to a JavaScript array?  Mirrors the
`Array.isArray(parsed)` guard used by both file and blob reads. -/
def contentIsArray : JContent → Bool
  | some (JVal.jarr _) => true
  | _ => false

/-! ## FileBackend (src/index.ts lines 31-69)

State of the local filesystem as far as `dataDir`/`dataFile` are
concerned.  `mkdirFails` injects a failure of `fsPromises.mkdir`
(e.g. permissions) and `readFails` a failure of `fsPromises.readFile`
after the ensure step (e.g. the file vanishing, permissions). -/
structure FState where
  dirExists : Bool
  file : Option JContent
  mkdirFails : Bool
  readFails : Bool

/-- `fsPromises.mkdir(dataDir, { recursive: true })`: succeeds (also when
the directory already exists) unless the environment makes it fail. -/
def mkdirRecursive (s : FState) : Except StoreError FState :=
  if s.mkdirFails then Except.error StoreError.mkdirFailed
  else Except.ok { s with dirExists := true }

/-- `ensureDataFileExists` (lines 44-54): creates the directory, then if
`access(dataFile)` rejects (file absent) writes the literal text `'[]'`,
i.e. the payload `some (JVal.jarr [])`.  The surrounding try/catch logs
and rethrows, so errors propagate unchanged. -/
def ensureDataFileExists (s : FState) : Except StoreError FState :=
  match mkdirRecursive s with
  | Except.error e => Except.error e
  | Except.ok s1 =>
    match s1.file with
    | some _ => Except.ok s1
    | none => Except.ok { s1 with file := some (some (JVal.jarr [])) }

/-- `readUsersFromFile` (lines 56-65).  Note the scope of the try/catch in
the source: `readFile` is *outside* it, only `JSON.parse` and the
`Array.isArray` dispatch are inside, so a failing read rejects while a
failing parse degrades to `[]`.  The returned values are the raw parsed
array elements (the source casts them to `User[]` without validation). -/
def readUsersFromFile (s : FState) : Except StoreError (List JVal × FState) :=
  match ensureDataFileExists s with
  | Except.error e => Except.error e
  | Except.ok s1 =>
    if s1.readFails then Except.error StoreError.readFailed
    else
      match s1.file with
      | none => Except.error StoreError.readFailed
      | some none => Except.ok ([], s1)
      | some (some (JVal.jarr xs)) => Except.ok (xs, s1)
      | some (some _) => Except.ok ([], s1)

/-- `writeUsersToFile` (lines 67-69): a single `fsPromises.writeFile` of
the serialized collection, with no ensure step; Node rejects with ENOENT
when the parent directory does not exist. -/
def writeUsersToFile (us : List User) (s : FState) : Except StoreError FState :=
  if s.dirExists then
    Except.ok { s with file := some (some (JVal.jarr (us.map encodeUser))) }
  else Except.error StoreError.enoent

/-! ## ObjectBackend (src/index.ts lines 33, 71-91) -/

/-- `const blobKey = 'data/users.json'` (line 33). -/
def blobKey : String := "data/users.json"

/-- Prefix test on pathnames, modelling the blob provider's
`list({ prefix })` filtering (performed by the service, not by repository
code). -/
def pathHasKeyPfx (p s : String) : Bool :=
  List.isPrefixOf p.data s.data

/-- State of the remote blob store.  `store` maps pathnames to stored
payloads; `put` inserts the written key at the front, reflecting that the
provider's listing returns the exact key before any longer pathname
sharing it as a prefix (lexicographic listing order).  `listFails`,
`fetchNetErr` and `fetchNotOk` inject a rejection of `list(...)`, a
network rejection of `fetch`, and a non-success HTTP status. -/
structure BlobState where
  store : List (String × JContent)
  listFails : Bool
  fetchNetErr : Bool
  fetchNotOk : Bool

/-- The result of `list({ prefix: blobKey, limit: 1 })`: entries under the
fixed prefix, at most one. -/
def listedBlobs (s : BlobState) : List (String × JContent) :=
  (s.store.filter (fun e => pathHasKeyPfx blobKey e.fst)).take 1

/-- `readUsersFromBlob` (lines 71-83).  The whole body is inside one
try/catch, so every rejection (listing, network) degrades to `[]`;
`find(pathname === blobKey) || blobs[0]` selects the exact key or the
first listed entry; `!res.ok` returns `[]`; `res.json()` throwing is
caught; non-array JSON returns `[]`. -/
def readUsersFromBlob (s : BlobState) : List JVal :=
  if s.listFails then []
  else
    let listed := listedBlobs s
    let entry :=
      match listed.find? (fun e => e.fst = blobKey) with
      | some e => some e
      | none => listed.head?
    match entry with
    | none => []
    | some e =>
      if s.fetchNetErr then []
      else if s.fetchNotOk then []
      else
        match e.snd with
        | none => []
        | some (JVal.jarr xs) => xs
        | some _ => []

/-- `writeUsersToBlob` (lines 85-91): `put(blobKey, JSON.stringify(...),
{ addRandomSuffix: false })` upserts the payload at the fixed key. -/
def writeUsersToBlob (us : List User) (s : BlobState) : BlobState :=
  { s with store :=
      (blobKey, some (JVal.jarr (us.map encodeUser)))
        :: s.store.filter (fun e => e.fst ≠ blobKey) }

/-! ## RelationalBackend (src/index.ts lines 105-129) -/

/-- State of the Postgres side: whether the `users` table exists, its
rows, and the value of the `SERIAL` identity sequence (the id the next
insert receives). -/
structure DbState where
  tableExists : Bool
  rows : List User
  nextSeq : Int
deriving DecidableEq, Repr

/-- `ensureUsersTable` (lines 106-113): `CREATE TABLE IF NOT EXISTS users
(id SERIAL PRIMARY KEY, ...)`; a fresh table starts its sequence at 1. -/
def ensureUsersTable (s : DbState) : DbState :=
  if s.tableExists then s
  else { tableExists := true, rows := [], nextSeq := 1 }

/-- Insert of one row into `users` with a database-assigned id:
`INSERT INTO users (name, email) VALUES (...)` consumes the sequence. -/
def insertUserRow (st : DbState) (u : User) : DbState :=
  { st with rows := st.rows ++ [⟨st.nextSeq, u.name, u.email⟩],
            nextSeq := st.nextSeq + 1 }

/-- Insertion into a list sorted ascending by id. -/
def insertById (u : User) : List User → List User
  | [] => [u]
  | v :: vs => if u.id ≤ v.id then u :: v :: vs else v :: insertById u vs

/-- `ORDER BY id ASC` of the select in `readUsersFromDb`. -/
def sortByIdAsc : List User → List User
  | [] => []
  | u :: us => insertById u (sortByIdAsc us)

/-- `readUsersFromDb` (lines 116-120): ensure the table, then
`SELECT id, name, email FROM users ORDER BY id ASC`. -/
def readUsersFromDb (s : DbState) : List User × DbState :=
  let s1 := ensureUsersTable s
  (sortByIdAsc s1.rows, s1)

/-- `writeUsersToDb` (lines 122-129): ensure the table, `TRUNCATE TABLE
users RESTART IDENTITY`, then insert each supplied record in collection
order, discarding its caller-supplied id. -/
def writeUsersToDb (us : List User) (s : DbState) : DbState :=
  let s1 := ensureUsersTable s
  let s2 := { s1 with rows := [], nextSeq := 1 }
  us.foldl insertUserRow s2

/-- The rows `k, k+1, ...` a sequential insert of `us` produces when the
identity sequence stands at `k`: collection order, ids consecutive. -/
def dbRowsFrom (k : Int) : List User → List User
  | [] => []
  | u :: us => ⟨k, u.name, u.email⟩ :: dbRowsFrom (k + 1) us

/-- The `n` consecutive integers `k, k+1, ..., k+n-1`: the ids a run of
`n` sequential inserts consumes when the sequence stands at `k`. -/
def seqIdsFrom (k : Int) : Nat → List Int
  | 0 => []
  | n + 1 => k :: seqIdsFrom (k + 1) n

/-! ## Backend selection (src/index.ts lines 36-42, 93-103) -/

/-- The environment variables the selection logic inspects. -/
structure Env where
  POSTGRES_URL : Option String
  POSTGRES_PRISMA_URL : Option String
  POSTGRES_URL_NON_POOLING : Option String
  BLOB_READ_WRITE_TOKEN : Option String
  VERCEL : Option String
deriving DecidableEq, Repr

/-- JavaScript truthiness of `Boolean(process.env.X)`: `undefined` and the
empty string are falsy, every other string is truthy. -/
def envTruthy : Option String → Bool
  | none => false
  | some s => !s.isEmpty

/-- `isDbEnabled` (lines 39-41). -/
def isDbEnabled (e : Env) : Bool :=
  envTruthy e.POSTGRES_URL || envTruthy e.POSTGRES_PRISMA_URL
    || envTruthy e.POSTGRES_URL_NON_POOLING

/-- `isBlobEnabled` (lines 36-38): object-storage token or the deployed
marker `VERCEL`. -/
def isBlobEnabled (e : Env) : Bool :=
  envTruthy e.BLOB_READ_WRITE_TOKEN || envTruthy e.VERCEL

/-- The combined external state the three backends live in. -/
structure World where
  fs : FState
  blob : BlobState
  db : DbState

/-- `readUsers` (lines 93-97): dispatch relational, then object, then
file, evaluating the configuration afresh.  Database rows are JavaScript
objects, rendered here through `encodeUser` so that all three arms return
JavaScript values. -/
def readUsers (e : Env) (w : World) : Except StoreError (List JVal × World) :=
  if isDbEnabled e then
    let p := readUsersFromDb w.db
    Except.ok (p.fst.map encodeUser, { w with db := p.snd })
  else if isBlobEnabled e then
    Except.ok (readUsersFromBlob w.blob, w)
  else
    match readUsersFromFile w.fs with
    | Except.error er => Except.error er
    | Except.ok p => Except.ok (p.fst, { w with fs := p.snd })

/-- `writeUsers` (lines 99-103): same dispatch as `readUsers`. -/
def writeUsers (us : List User) (e : Env) (w : World) : Except StoreError World :=
  if isDbEnabled e then Except.ok { w with db := writeUsersToDb us w.db }
  else if isBlobEnabled e then Except.ok { w with blob := writeUsersToBlob us w.blob }
  else
    match writeUsersToFile us w.fs with
    | Except.error er => Except.error er
    | Except.ok fs1 => Except.ok { w with fs := fs1 }

/-! ## Form-submission flow (src/index.ts lines 188-210) -/

/-- The id the POST /users handler computes for the new record (line 200):
`currentUsers.reduce((max, u) => (u.id > max ? u.id : max), 0) + 1`. -/
def formNextId (currentUsers : List User) : Int :=
  currentUsers.foldl (fun mx u => if u.id > mx then u.id else mx) 0 + 1

/-- The record the handler appends before calling `writeUsers`
(lines 201-202). -/
def formNewUser (name email : String) (currentUsers : List User) : User :=
  { id := formNextId currentUsers, name := name, email := email }

/-- The collection the handler passes to `writeUsers` (line 202):
`currentUsers.push(newUser)`. -/
def formCollection (name email : String) (currentUsers : List User) : List User :=
  currentUsers ++ [formNewUser name email currentUsers]

/-! ## General lemmas about the embedded operations -/

/-- Serialization of a user is injective: the stored object determines the
record, ids included. -/
theorem encodeUser_injective : Function.Injective encodeUser := by
  intro u v h
  cases u
  cases v
  simp [encodeUser] at h
  simp [h.1, h.2.1, h.2.2]

/-- `ensureUsersTable` always leaves the table in place. -/
theorem ensureUsersTable_tableExists (s : DbState) :
    (ensureUsersTable s).tableExists = true := by
  by_cases h : s.tableExists <;> simp [ensureUsersTable, h]

/-- Effect of the sequential insert loop of `writeUsersToDb`: rows are
appended in collection order with ids drawn consecutively from the
sequence. -/
theorem foldl_insertUserRow (us : List User) (s : DbState) :
    us.foldl insertUserRow s =
      { tableExists := s.tableExists,
        rows := s.rows ++ dbRowsFrom s.nextSeq us,
        nextSeq := s.nextSeq + us.length } := by
  induction us generalizing s with
  | nil => simp [dbRowsFrom]
  | cons u us ih =>
    rw [List.foldl_cons, ih]
    simp only [insertUserRow, dbRowsFrom, List.append_assoc, List.singleton_append,
      List.length_cons]
    refine congrArg (DbState.mk s.tableExists _) ?_
    push_cast
    ring

/-- Every row produced from sequence value `k` onwards has id at least
`k`. -/
theorem dbRowsFrom_id_lb (us : List User) :
    ∀ (k : Int), ∀ v ∈ dbRowsFrom k us, k ≤ v.id := by
  induction us with
  | nil => intro k v hv; simp [dbRowsFrom] at hv
  | cons u us ih =>
    intro k v hv
    simp only [dbRowsFrom, List.mem_cons] at hv
    rcases hv with h | h
    · simp [h]
    · have := ih (k + 1) v h
      omega

/-- Rows produced by the sequential insert are pairwise ascending in id. -/
theorem dbRowsFrom_pairwise (us : List User) :
    ∀ (k : Int), List.Pairwise (fun a b => a.id ≤ b.id) (dbRowsFrom k us) := by
  induction us with
  | nil => intro k; simp [dbRowsFrom]
  | cons u us ih =>
    intro k
    simp only [dbRowsFrom, List.pairwise_cons]
    constructor
    · intro v hv
      have := dbRowsFrom_id_lb us (k + 1) v hv
      omega
    · exact ih (k + 1)

/-- Inserting an element below every element of a list prepends it. -/
theorem insertById_of_le (u : User) (l : List User)
    (h : ∀ v ∈ l, u.id ≤ v.id) : insertById u l = u :: l := by
  cases l with
  | nil => rfl
  | cons v vs =>
    have hv : u.id ≤ v.id := h v (by simp)
    simp [insertById, hv]

/-- `ORDER BY id ASC` is the identity on rows already ascending in id. -/
theorem sortByIdAsc_of_pairwise (l : List User)
    (h : List.Pairwise (fun a b => a.id ≤ b.id) l) : sortByIdAsc l = l := by
  induction l with
  | nil => rfl
  | cons u us ih =>
    rw [sortByIdAsc, ih (List.Pairwise.of_cons h)]
    exact insertById_of_le u us (List.pairwise_cons.mp h).1

/-- Complete characterization of `writeUsersToDb`: the table holds exactly
the supplied records in collection order with database-assigned ids
`1, 2, ...`, and the sequence stands past them. -/
theorem writeUsersToDb_spec (us : List User) (s : DbState) :
    writeUsersToDb us s =
      { tableExists := true, rows := dbRowsFrom 1 us,
        nextSeq := 1 + us.length } := by
  unfold writeUsersToDb
  rw [foldl_insertUserRow]
  simp [ensureUsersTable_tableExists]

/-- Reading back after a write returns the freshly numbered rows in
insertion (collection) order: the explicit sort is the identity there. -/
theorem readUsersFromDb_after_write (us : List User) (s : DbState) :
    readUsersFromDb (writeUsersToDb us s) =
      (dbRowsFrom 1 us, writeUsersToDb us s) := by
  rw [writeUsersToDb_spec]
  unfold readUsersFromDb ensureUsersTable
  simp [sortByIdAsc_of_pairwise _ (dbRowsFrom_pairwise us 1)]

/-- The name/email projection of the database-assigned rows is the
projection of the input collection, in order. -/
theorem dbRowsFrom_map_pair (us : List User) :
    ∀ (k : Int), (dbRowsFrom k us).map (fun u => (u.name, u.email)) =
      us.map (fun u => (u.name, u.email)) := by
  induction us with
  | nil => intro k; rfl
  | cons u us ih => intro k; simp [dbRowsFrom, ih (k + 1)]

/-- The ids of the database-assigned rows starting at `k` are
`k, k+1, ...` in order. -/
theorem dbRowsFrom_map_id (us : List User) :
    ∀ (k : Int), (dbRowsFrom k us).map (fun u => u.id) =
      seqIdsFrom k us.length := by
  induction us with
  | nil => intro k; rfl
  | cons u us ih =>
    intro k
    simp [dbRowsFrom, seqIdsFrom, ih (k + 1)]

/-- The accumulator of the id-maximum reduce only grows. -/
theorem formFold_acc_le (l : List User) :
    ∀ (a : Int), a ≤ l.foldl (fun mx u => if u.id > mx then u.id else mx) a := by
  induction l with
  | nil => intro a; simp
  | cons u us ih =>
    intro a
    rw [List.foldl_cons]
    refine le_trans ?_ (ih _)
    by_cases h : u.id > a <;> simp [h]
    omega

/-- Every id of the collection is bounded by the reduce's result. -/
theorem formFold_mem_le (l : List User) :
    ∀ (a : Int), ∀ u ∈ l,
      u.id ≤ l.foldl (fun mx u => if u.id > mx then u.id else mx) a := by
  induction l with
  | nil => intro a u hu; simp at hu
  | cons v vs ih =>
    intro a u hu
    rw [List.foldl_cons]
    rcases List.mem_cons.mp hu with h | h
    · subst h
      refine le_trans ?_ (formFold_acc_le vs _)
      by_cases hc : u.id > a <;> simp [hc]
      omega
    · exact ih _ u h

/-- The reduce's result is the initial accumulator or one of the ids. -/
theorem formFold_cases (l : List User) :
    ∀ (a : Int),
      l.foldl (fun mx u => if u.id > mx then u.id else mx) a = a
        ∨ ∃ u ∈ l, l.foldl (fun mx u => if u.id > mx then u.id else mx) a = u.id := by
  induction l with
  | nil => intro a; simp
  | cons v vs ih =>
    intro a
    rw [List.foldl_cons]
    rcases ih (if v.id > a then v.id else a) with h | ⟨u, hu, h⟩
    · by_cases hc : v.id > a
      · right
        exact ⟨v, by simp, by simpa [hc] using h⟩
      · left
        simpa [hc] using h
    · right
      exact ⟨u, by simp [hu], h⟩

/-- `ensureDataFileExists` on a state whose file is present only marks the
directory as existing and leaves the content untouched. -/
theorem ensureDataFileExists_of_present (s : FState) (c : JContent)
    (hm : s.mkdirFails = false) (hf : s.file = some c) :
    ensureDataFileExists s = Except.ok { s with dirExists := true } := by
  simp [ensureDataFileExists, mkdirRecursive, hm, hf]

/-- `ensureDataFileExists` on a state with no file creates it with the
payload `'[]'`. -/
theorem ensureDataFileExists_of_absent (s : FState)
    (hm : s.mkdirFails = false) (hf : s.file = none) :
    ensureDataFileExists s =
      Except.ok { s with dirExists := true, file := some (some (JVal.jarr [])) } := by
  simp [ensureDataFileExists, mkdirRecursive, hm, hf]

/-! ## The claims -/

/-- C1: Round-trip — for every collection C of valid User records,
writeAll followed by readAll on the same backend returns C: for the file
and object backends the stored values are exactly the serializations of C
(ids verbatim, by injectivity of the serialization), and for the
relational backend the (name, email) projection is preserved in order
while ids may be reassigned. -/
theorem roundTrip_writeAll_readAll (C : List User) (fs : FState)
    (bs : BlobState) (db : DbState) (_hv : ValidUsers C) :
    (fs.dirExists = true → fs.mkdirFails = false → fs.readFails = false →
      ∃ fs1, writeUsersToFile C fs = Except.ok fs1
        ∧ readUsersFromFile fs1 = Except.ok (C.map encodeUser, fs1))
    ∧ (bs.listFails = false → bs.fetchNetErr = false → bs.fetchNotOk = false →
        readUsersFromBlob (writeUsersToBlob C bs) = C.map encodeUser)
    ∧ ((readUsersFromDb (writeUsersToDb C db)).fst.map (fun u => (u.name, u.email))
        = C.map (fun u => (u.name, u.email)))
    ∧ Function.Injective encodeUser := by
  refine ⟨?_, ?_, ?_, encodeUser_injective⟩
  · intro hd hm hr
    refine ⟨{ fs with file := some (some (JVal.jarr (C.map encodeUser))) },
      by simp [writeUsersToFile, hd], ?_⟩
    have he := ensureDataFileExists_of_present
      { fs with file := some (some (JVal.jarr (C.map encodeUser))) }
      (some (JVal.jarr (C.map encodeUser))) hm rfl
    cases fs
    simp_all [readUsersFromFile]
  · intro hl hne hno
    have hp : pathHasKeyPfx blobKey blobKey = true := by decide
    simp [readUsersFromBlob, writeUsersToBlob, listedBlobs, hl, hne, hno,
      List.filter_cons, hp]
  · rw [readUsersFromDb_after_write]
    exact dbRowsFrom_map_pair C 1

/-- C1 witness: the round trip evaluated on a one-record collection over
concrete backend states. -/
theorem roundTrip_writeAll_readAll_witness :
    readUsersFromBlob (writeUsersToBlob [⟨1, "Alice", "a@x"⟩]
        ⟨[], false, false, false⟩) = [encodeUser ⟨1, "Alice", "a@x"⟩]
    ∧ (readUsersFromDb (writeUsersToDb [⟨1, "Alice", "a@x"⟩]
        ⟨false, [], 1⟩)).fst.map (fun u => (u.name, u.email))
        = [("Alice", "a@x")] :=
  ⟨(roundTrip_writeAll_readAll [⟨1, "Alice", "a@x"⟩]
      ⟨true, none, false, false⟩ ⟨[], false, false, false⟩ ⟨false, [], 1⟩
      (by unfold ValidUsers; decide)).2.1 rfl rfl rfl,
   (roundTrip_writeAll_readAll [⟨1, "Alice", "a@x"⟩]
      ⟨true, none, false, false⟩ ⟨[], false, false, false⟩ ⟨false, [], 1⟩
      (by unfold ValidUsers; decide)).2.2.1⟩

/-- C2: Empty-on-corruption — when the stored file or object payload is
not valid JSON or not an array, readAll returns the empty collection with
no error surfaced (given the mandatory setup and transport steps
themselves succeed). -/
theorem readAll_empty_on_corruption (fs : FState) (bs : BlobState)
    (c : JContent) (hca : contentIsArray c = false)
    (hm : fs.mkdirFails = false) (hr : fs.readFails = false)
    (hf : fs.file = some c)
    (hl : bs.listFails = false) (hne : bs.fetchNetErr = false)
    (hno : bs.fetchNotOk = false)
    (rest : List (String × JContent)) (hbs : bs.store = (blobKey, c) :: rest) :
    readUsersFromFile fs = Except.ok ([], { fs with dirExists := true })
    ∧ readUsersFromBlob bs = [] := by
  constructor
  · have he := ensureDataFileExists_of_present fs c hm hf
    cases fs
    cases c with
    | none => simp_all [readUsersFromFile]
    | some v => cases v <;> simp_all [readUsersFromFile, contentIsArray]
  · have hp : pathHasKeyPfx blobKey blobKey = true := by decide
    cases c with
    | none =>
      simp [readUsersFromBlob, listedBlobs, hbs, hl, hne, hno,
        List.filter_cons, hp]
    | some v =>
      cases v <;>
        simp_all [readUsersFromBlob, listedBlobs, List.filter_cons, hp,
          contentIsArray]

/-- C2 witness: a stored payload that parses to a JSON string (valid JSON,
not an array) yields the empty collection on both backends. -/
theorem readAll_empty_on_corruption_witness :
    readUsersFromFile ⟨true, some (some (JVal.jstr "oops")), false, false⟩
      = Except.ok ([], ⟨true, some (some (JVal.jstr "oops")), false, false⟩)
    ∧ readUsersFromBlob ⟨[(blobKey, some (JVal.jstr "oops"))], false, false, false⟩
      = [] :=
  readAll_empty_on_corruption
    ⟨true, some (some (JVal.jstr "oops")), false, false⟩
    ⟨[(blobKey, some (JVal.jstr "oops"))], false, false, false⟩
    (some (JVal.jstr "oops")) rfl rfl rfl rfl rfl rfl rfl [] rfl

/-- C3: Backend priority — readAll/writeAll dispatch with priority
relational > object > file, re-evaluating the configuration each call:
with the relational signal present only the relational backend is touched
(the file and blob states are passed through unchanged and the result is
the relational one); with only the object signal present only the blob
store is exercised; with no signal the file backend is used. -/
theorem backend_priority_selection (e : Env) (w : World) (us : List User) :
    (isDbEnabled e = true →
      readUsers e w = Except.ok ((readUsersFromDb w.db).fst.map encodeUser,
          { w with db := (readUsersFromDb w.db).snd })
      ∧ writeUsers us e w = Except.ok { w with db := writeUsersToDb us w.db })
    ∧ (isDbEnabled e = false → isBlobEnabled e = true →
      readUsers e w = Except.ok (readUsersFromBlob w.blob, w)
      ∧ writeUsers us e w = Except.ok { w with blob := writeUsersToBlob us w.blob })
    ∧ (isDbEnabled e = false → isBlobEnabled e = false →
      readUsers e w =
        (match readUsersFromFile w.fs with
         | Except.error er => Except.error er
         | Except.ok p => Except.ok (p.fst, { w with fs := p.snd }))
      ∧ writeUsers us e w =
        (match writeUsersToFile us w.fs with
         | Except.error er => Except.error er
         | Except.ok fs1 => Except.ok { w with fs := fs1 })) := by
  refine ⟨fun hd => ?_, fun hd hb => ?_, fun hd hb => ?_⟩ <;>
    constructor <;> simp [readUsers, writeUsers, hd, *]

/-- C3 witness: with both the relational and the object signal set, the
relational backend alone handles the write. -/
theorem backend_priority_selection_witness :
    writeUsers [] ⟨some "pg", none, none, some "tok", some "1"⟩
        ⟨⟨true, none, false, false⟩, ⟨[], false, false, false⟩, ⟨false, [], 1⟩⟩
      = Except.ok ⟨⟨true, none, false, false⟩, ⟨[], false, false, false⟩,
          ⟨true, [], 1⟩⟩ :=
  (backend_priority_selection ⟨some "pg", none, none, some "tok", some "1"⟩
      ⟨⟨true, none, false, false⟩, ⟨[], false, false, false⟩, ⟨false, [], 1⟩⟩
      [] ).1 rfl |>.2

/-- C4: Full-replace semantics of the relational backend — writing C1 then
a disjoint C2 and reading back yields exactly the rows of C2 (names and
emails in collection order, database-assigned ids), with no residual row
of C1; each write truncates the table, resets the sequence to 1 and
reinserts in collection order discarding input ids. -/
theorem relational_full_replace (C1 C2 : List User) (db : DbState)
    (_hdisj : ∀ u ∈ C1, u ∉ C2) :
    (readUsersFromDb (writeUsersToDb C2 (writeUsersToDb C1 db))).fst
        = dbRowsFrom 1 C2
    ∧ (readUsersFromDb (writeUsersToDb C2 (writeUsersToDb C1 db))).fst.map
          (fun u => (u.name, u.email))
        = C2.map (fun u => (u.name, u.email))
    ∧ (writeUsersToDb C2 (writeUsersToDb C1 db)).rows = dbRowsFrom 1 C2
    ∧ (writeUsersToDb C2 (writeUsersToDb C1 db)).nextSeq = 1 + C2.length := by
  refine ⟨?_, ?_, ?_, ?_⟩
  · rw [readUsersFromDb_after_write]
  · rw [readUsersFromDb_after_write]
    exact dbRowsFrom_map_pair C2 1
  · rw [writeUsersToDb_spec]
  · rw [writeUsersToDb_spec]

/-- C4 witness: replacing a one-record collection by a disjoint one leaves
only the new record. -/
theorem relational_full_replace_witness :
    (readUsersFromDb (writeUsersToDb [⟨7, "Bob", "b@x"⟩]
        (writeUsersToDb [⟨1, "Alice", "a@x"⟩] ⟨false, [], 1⟩))).fst
      = [⟨1, "Bob", "b@x"⟩] :=
  (relational_full_replace [⟨1, "Alice", "a@x"⟩] [⟨7, "Bob", "b@x"⟩]
      ⟨false, [], 1⟩ (by decide)).1

/-- C5: ID monotonicity at the caller level — the POST /users handler
assigns the new record the id max(existing ids) + 1 when all existing ids
are positive, and id 1 on the empty collection (the reduce starts its
accumulator at 0). -/
theorem form_new_user_id_monotonic (l : List User) (name email : String)
    (m : Int) (hpos : ∀ u ∈ l, 0 < u.id) (hmem : ∃ u ∈ l, u.id = m)
    (hub : ∀ u ∈ l, u.id ≤ m) :
    (formNewUser name email l).id = m + 1
    ∧ (formNewUser name email []).id = 1 := by
  constructor
  · obtain ⟨u0, hu0, hid⟩ := hmem
    have h1 : m ≤ l.foldl (fun mx u => if u.id > mx then u.id else mx) 0 := by
      rw [← hid]
      exact formFold_mem_le l 0 u0 hu0
    have h2 : l.foldl (fun mx u => if u.id > mx then u.id else mx) 0 ≤ m := by
      rcases formFold_cases l 0 with h | ⟨u, hu, h⟩
      · have := hpos u0 hu0
        omega
      · rw [h]
        exact hub u hu
    have : l.foldl (fun mx u => if u.id > mx then u.id else mx) 0 = m := le_antisymm h2 h1
    simp [formNewUser, formNextId, this]
  · rfl

/-- C5 witness: over the collection with ids 2 and 1 the handler assigns
id 3. -/
theorem form_new_user_id_monotonic_witness :
    (formNewUser "Carol" "c@x" [⟨2, "Alice", "a@x"⟩, ⟨1, "Bob", "b@x"⟩]).id = 3
    ∧ (formNewUser "Carol" "c@x" []).id = 1 :=
  form_new_user_id_monotonic [⟨2, "Alice", "a@x"⟩, ⟨1, "Bob", "b@x"⟩]
    "Carol" "c@x" 2 (by decide) (by decide) (by decide)

/-- C6 counterexample: on a state where the ensure step succeeds (the file
exists, its content is even well-formed) but the file-content read itself
fails, readAll rejects with an I/O error — it does not degrade to an empty
result as the claim states. -/
theorem file_read_failure_propagates_cex :
    readUsersFromFile ⟨true, some (some (JVal.jarr [])), false, true⟩
      = Except.error StoreError.readFailed := rfl

/-- C6 (amended): failures of the ensure-exists step and of the
file-content read both propagate as I/O errors; only a failure to parse
the content as JSON, or content that is not an array, degrades to the
empty result. -/
theorem file_read_failure_taxonomy (s : FState) :
    (s.mkdirFails = true →
      readUsersFromFile s = Except.error StoreError.mkdirFailed)
    ∧ (s.mkdirFails = false → s.readFails = true →
      readUsersFromFile s = Except.error StoreError.readFailed)
    ∧ (∀ c : JContent, s.mkdirFails = false → s.readFails = false →
      s.file = some c → contentIsArray c = false →
      readUsersFromFile s = Except.ok ([], { s with dirExists := true })) := by
  refine ⟨fun hm => ?_, fun hm hr => ?_, fun c hm hr hf hca => ?_⟩
  · simp [readUsersFromFile, ensureDataFileExists, mkdirRecursive, hm]
  · cases hfile : s.file with
    | none =>
      have he := ensureDataFileExists_of_absent s hm hfile
      cases s
      simp_all [readUsersFromFile]
    | some c =>
      have he := ensureDataFileExists_of_present s c hm hfile
      cases s
      simp_all [readUsersFromFile]
  · have he := ensureDataFileExists_of_present s c hm hf
    cases s
    cases c with
    | none => simp_all [readUsersFromFile]
    | some v => cases v <;> simp_all [readUsersFromFile, contentIsArray]

/-- C6 amended-claim witness: a failing mkdir propagates on a concrete
state, and corrupt content degrades to empty on another. -/
theorem file_read_failure_taxonomy_witness :
    readUsersFromFile ⟨false, none, true, false⟩
      = Except.error StoreError.mkdirFailed
    ∧ readUsersFromFile ⟨true, some none, false, false⟩
      = Except.ok ([], ⟨true, some none, false, false⟩) :=
  ⟨(file_read_failure_taxonomy ⟨false, none, true, false⟩).1 rfl,
   (file_read_failure_taxonomy ⟨true, some none, false, false⟩).2.2
     none rfl rfl rfl rfl⟩

/-- C7: First-access bootstrap — reading from the file backend when the
data file is absent creates the directory and the file with the payload
`'[]'` and returns the empty collection; when the file already exists the
ensure step leaves its content unchanged (so the step is idempotent and
harmless on every read). -/
theorem file_first_access_bootstrap (s : FState)
    (hm : s.mkdirFails = false) (hr : s.readFails = false) :
    (s.file = none →
      readUsersFromFile s = Except.ok ([],
        { s with dirExists := true, file := some (some (JVal.jarr [])) }))
    ∧ (∀ c : JContent, s.file = some c →
      ensureDataFileExists s = Except.ok { s with dirExists := true }) := by
  constructor
  · intro hf
    have he := ensureDataFileExists_of_absent s hm hf
    cases s
    simp_all [readUsersFromFile]
  · intro c hf
    exact ensureDataFileExists_of_present s c hm hf

/-- C7 witness: bootstrap evaluated from the state with no directory and
no file. -/
theorem file_first_access_bootstrap_witness :
    readUsersFromFile ⟨false, none, false, false⟩
      = Except.ok ([], ⟨true, some (some (JVal.jarr [])), false, false⟩)
    ∧ ensureDataFileExists ⟨true, some (some (JVal.jarr [])), false, false⟩
      = Except.ok ⟨true, some (some (JVal.jarr [])), false, false⟩ :=
  ⟨(file_first_access_bootstrap ⟨false, none, false, false⟩ rfl rfl).1 rfl,
   (file_first_access_bootstrap ⟨true, some (some (JVal.jarr [])), false, false⟩
      rfl rfl).2 (some (JVal.jarr [])) rfl⟩

/-- C8: ObjectBackend readAll — the listing is taken under the fixed key
prefix with limit 1; a failing listing, an empty listing, a network
failure, a non-success HTTP status, unparsable content and non-array
content all yield the empty collection, and a found entry whose content
parses to an array yields exactly its elements. -/
theorem blob_readAll_characterization (bs : BlobState) :
    (bs.listFails = true → readUsersFromBlob bs = [])
    ∧ (bs.listFails = false → listedBlobs bs = [] → readUsersFromBlob bs = [])
    ∧ (∀ p c, listedBlobs bs = [(p, c)] → bs.listFails = false →
      (bs.fetchNetErr = true → readUsersFromBlob bs = [])
      ∧ (bs.fetchNetErr = false → bs.fetchNotOk = true → readUsersFromBlob bs = [])
      ∧ (bs.fetchNetErr = false → bs.fetchNotOk = false →
        (contentIsArray c = false → readUsersFromBlob bs = [])
        ∧ (∀ xs, c = some (JVal.jarr xs) → readUsersFromBlob bs = xs))) := by
  refine ⟨fun hl => ?_, fun hl he => ?_, fun p c hlist hl => ?_⟩
  · simp [readUsersFromBlob, hl]
  · simp [readUsersFromBlob, hl, he]
  · refine ⟨fun hne => ?_, fun hne hno => ?_, fun hne hno => ?_⟩
    · by_cases hpk : p = blobKey <;>
        simp [readUsersFromBlob, hl, hlist, hne, hpk]
    · by_cases hpk : p = blobKey <;>
        simp [readUsersFromBlob, hl, hlist, hne, hno, hpk]
    · constructor
      · intro hca
        cases c with
        | none =>
          by_cases hpk : p = blobKey <;>
            simp [readUsersFromBlob, hl, hlist, hne, hno, hpk]
        | some v =>
          cases v with
          | jarr xs => simp [contentIsArray] at hca
          | jnull =>
            by_cases hpk : p = blobKey <;>
              simp [readUsersFromBlob, hl, hlist, hne, hno, hpk]
          | jbool b =>
            by_cases hpk : p = blobKey <;>
              simp [readUsersFromBlob, hl, hlist, hne, hno, hpk]
          | jnum n =>
            by_cases hpk : p = blobKey <;>
              simp [readUsersFromBlob, hl, hlist, hne, hno, hpk]
          | jstr t =>
            by_cases hpk : p = blobKey <;>
              simp [readUsersFromBlob, hl, hlist, hne, hno, hpk]
          | jobj fields =>
            by_cases hpk : p = blobKey <;>
              simp [readUsersFromBlob, hl, hlist, hne, hno, hpk]
      · intro xs hc
        subst hc
        by_cases hpk : p = blobKey <;>
          simp [readUsersFromBlob, hl, hlist, hne, hno, hpk]

/-- C8 witness: a store holding an array payload at the exact key yields
its elements; with the not-ok flag set it yields the empty collection. -/
theorem blob_readAll_characterization_witness :
    readUsersFromBlob ⟨[(blobKey, some (JVal.jarr [JVal.jnum 5]))],
        false, false, false⟩ = [JVal.jnum 5]
    ∧ readUsersFromBlob ⟨[(blobKey, some (JVal.jarr [JVal.jnum 5]))],
        false, false, true⟩ = [] :=
  ⟨((blob_readAll_characterization ⟨[(blobKey, some (JVal.jarr [JVal.jnum 5]))],
      false, false, false⟩).2.2 blobKey (some (JVal.jarr [JVal.jnum 5]))
      rfl rfl).2.2 rfl rfl |>.2 [JVal.jnum 5] rfl,
   ((blob_readAll_characterization ⟨[(blobKey, some (JVal.jarr [JVal.jnum 5]))],
      false, false, true⟩).2.2 blobKey (some (JVal.jarr [JVal.jnum 5]))
      rfl rfl).2.1 rfl rfl⟩

/-- C9: Write/read bootstrap asymmetry — the file-backend write performs a
single whole-file write with no ensure step, so with the data directory
absent it rejects with an I/O error instead of creating anything; only the
read path bootstraps the storage. -/
theorem file_writeAll_no_bootstrap (us : List User) (s : FState)
    (h : s.dirExists = false) :
    writeUsersToFile us s = Except.error StoreError.enoent := by
  simp [writeUsersToFile, h]

/-- C9 witness: writing one record with no data directory rejects. -/
theorem file_writeAll_no_bootstrap_witness :
    writeUsersToFile [⟨1, "Alice", "a@x"⟩] ⟨false, none, false, false⟩
      = Except.error StoreError.enoent :=
  file_writeAll_no_bootstrap [⟨1, "Alice", "a@x"⟩]
    ⟨false, none, false, false⟩ rfl

/-- C10: Relational id normalization — after writeAll(C) the stored rows
are exactly C's records in collection order with ids renumbered
1, 2, ..., |C|, and a subsequent readAll returns those rows unchanged (the
ORDER BY is the identity on them). -/
theorem relational_id_normalization (C : List User) (db : DbState) :
    (writeUsersToDb C db).rows = dbRowsFrom 1 C
    ∧ (writeUsersToDb C db).rows.map (fun u => u.id) = seqIdsFrom 1 C.length
    ∧ (writeUsersToDb C db).rows.map (fun u => (u.name, u.email))
        = C.map (fun u => (u.name, u.email))
    ∧ (readUsersFromDb (writeUsersToDb C db)).fst = (writeUsersToDb C db).rows := by
  refine ⟨?_, ?_, ?_, ?_⟩
  · rw [writeUsersToDb_spec]
  · rw [writeUsersToDb_spec]
    exact dbRowsFrom_map_id C 1
  · rw [writeUsersToDb_spec]
    exact dbRowsFrom_map_pair C 1
  · rw [readUsersFromDb_after_write, writeUsersToDb_spec]
